import Mathlib

/-!
Verification of the Marketing Metrics CLI (Go) core: metric computation,
aggregation, filtering, sorting dispatch, selections, and CSV loading.

The Go program works on `float64`; we embed the numeric computations over `ℚ`
with exact arithmetic.  `math.Round` (round to nearest, ties away from zero)
is embedded as `goRound`.  Go's `sort.Slice` and `strconv.ParseFloat` are
standard-library collaborators whose sources are not part of this repository;
they are modelled from their documented contracts where noted.
-/

namespace MarketingMetrics

/-- Type `Campaign` holds raw data parsed from one CSV row (main.go, type Campaign). -/
structure Campaign where
  Name : String
  Impressions : ℚ
  Clicks : ℚ
  Conversions : ℚ
  Spend : ℚ
  Revenue : ℚ
deriving DecidableEq, Repr

/-- Type `Metrics` holds computed KPIs for one campaign (main.go, type Metrics). -/
structure Metrics where
  Name : String
  CTR : ℚ
  CVR : ℚ
  CPC : ℚ
  CPA : ℚ
  ROAS : ℚ
  RevPerConv : ℚ
  Spend : ℚ
  Revenue : ℚ
  Impressions : ℚ
  Clicks : ℚ
  Conversions : ℚ
deriving DecidableEq, Repr

/-- Function `safe(a, b float64) float64` (main.go lines 59-64): division that
returns 0 when the denominator is 0. -/
def safe (a b : ℚ) : ℚ :=
  if b = 0 then 0 else a / b

/-- Go's `math.Round`: rounds to the nearest integer, ties away from zero. -/
def goRound (q : ℚ) : ℚ :=
  if q < 0 then -((⌊-q + 1/2⌋ : ℤ) : ℚ) else ((⌊q + 1/2⌋ : ℤ) : ℚ)

/-- Function `round2(v float64) float64` (main.go lines 66-68):
`math.Round(v*100) / 100`. -/
def round2 (v : ℚ) : ℚ :=
  goRound (v * 100) / 100

/-- Function `computeMetrics(c Campaign) Metrics` (main.go lines 70-85). -/
def computeMetrics (c : Campaign) : Metrics :=
  { Name := c.Name
    CTR := round2 (safe c.Clicks c.Impressions * 100)
    CVR := round2 (safe c.Conversions c.Clicks * 100)
    CPC := round2 (safe c.Spend c.Clicks)
    CPA := round2 (safe c.Spend c.Conversions)
    ROAS := round2 (safe c.Revenue c.Spend)
    RevPerConv := round2 (safe c.Revenue c.Conversions)
    Spend := c.Spend
    Revenue := c.Revenue
    Impressions := c.Impressions
    Clicks := c.Clicks
    Conversions := c.Conversions }

/-- Function `totalMetrics(all []Metrics) Metrics` (main.go lines 172-183): sum the
carried-forward raw measures into a fresh `Campaign` named "TOTAL", then run
`computeMetrics` on it. -/
def totalMetrics (all : List Metrics) : Metrics :=
  computeMetrics (all.foldl
    (fun t m =>
      { t with
        Impressions := t.Impressions + m.Impressions
        Clicks := t.Clicks + m.Clicks
        Conversions := t.Conversions + m.Conversions
        Spend := t.Spend + m.Spend
        Revenue := t.Revenue + m.Revenue })
    { Name := "TOTAL", Impressions := 0, Clicks := 0, Conversions := 0,
      Spend := 0, Revenue := 0 })

/-- ASCII lowering of one character, as Go's `strings.ToLower` acts on the
ASCII range (the CLI's sort keys and CSV headers are ASCII). -/
def asciiLower (c : Char) : Char :=
  if 'A' ≤ c ∧ c ≤ 'Z' then Char.ofNat (c.toNat + 32) else c

/-- Model of Go's `strings.ToLower`, faithful on ASCII strings. -/
def goToLower (s : String) : String :=
  String.mk (s.data.map asciiLower)

/-- ASCII whitespace, as Go's `unicode.IsSpace` acts on the ASCII range. -/
def goIsSpace (c : Char) : Bool :=
  c = ' ' || c = '\t' || c = '\n' || c = '\r'

/-- Model of Go's `strings.TrimSpace`, faithful on ASCII strings. -/
def goTrim (s : String) : String :=
  String.mk (((s.data.dropWhile goIsSpace).reverse.dropWhile goIsSpace).reverse)

/-- Model of `strings.ReplaceAll(s, ",", "")` as used by `parseFloat` (main.go line 92):
removes every comma. -/
def stripCommas (s : String) : String :=
  String.mk (s.data.filter (fun c => c ≠ ','))

/-- Numeric value of a list of decimal digit characters. -/
def digitsToNat (ds : List Char) : Nat :=
  ds.foldl (fun a c => a * 10 + (c.toNat - 48)) 0

/-- Modelled from the spec: Go's `strconv.ParseFloat` (standard library, not
part of this repository's sources), restricted to plain decimal syntax
`[+|-] digits [. digits] [(e|E) [+|-] digits]` with a nonempty mantissa, read
as an exact rational (the Go function returns the nearest `float64`; the exact
rational is the idealisation of that value).  Acceptance, rejection and sign
handling follow Go's documented number syntax; in particular a leading `-` is
accepted and produces a negative value. -/
def parseGoFloat (s : String) : Option ℚ :=
  let cs := s.data
  let (neg, cs1) :=
    match cs with
    | '-' :: r => (true, r)
    | '+' :: r => (false, r)
    | r => (false, r)
  let ip := cs1.takeWhile Char.isDigit
  let cs2 := cs1.dropWhile Char.isDigit
  let (fp, cs3) :=
    match cs2 with
    | '.' :: r => (r.takeWhile Char.isDigit, r.dropWhile Char.isDigit)
    | r => (([] : List Char), r)
  if ip.isEmpty && fp.isEmpty then none
  else
    let mant : ℚ := (digitsToNat ip : ℚ) + (digitsToNat fp : ℚ) / ((10 : ℚ) ^ fp.length)
    let sval : ℚ := if neg then -mant else mant
    match cs3 with
    | [] => some sval
    | e :: r =>
      if e = 'e' ∨ e = 'E' then
        let (eneg, r1) :=
          match r with
          | '-' :: t => (true, t)
          | '+' :: t => (false, t)
          | t => (false, t)
        let ed := r1.takeWhile Char.isDigit
        let rest := r1.dropWhile Char.isDigit
        if ed.isEmpty ∨ rest.isEmpty = false then none
        else if eneg then some (sval / (10 : ℚ) ^ digitsToNat ed)
        else some (sval * (10 : ℚ) ^ digitsToNat ed)
      else none

/-- Function `parseFloat(s string) (float64, error)` (main.go lines 91-94): strip
commas, trim space, then `strconv.ParseFloat`. -/
def parseFloat (s : String) : Option ℚ :=
  parseGoFloat (goTrim (stripCommas s))

/-- Load-time failures of `loadCSV`, carrying the data of the corresponding
`fmt.Errorf` messages (main.go lines 96-168).  `badField i col` models
`"row %d, column %q: %w"` with the 1-based row number `i` (the header is row
1) and the field name; `raggedRow` stands for the index-out-of-range panic Go
would hit on a row shorter than the header, unreachable for inputs produced by
`csv.ReadAll`, which enforces a uniform field count. -/
inductive LoadErr where
  | tooFewRows : LoadErr
  | missingColumn : String → LoadErr
  | badField : Nat → String → LoadErr
  | raggedRow : Nat → String → LoadErr
deriving DecidableEq, Repr

/-- Variable `requiredCols` (main.go line 89). -/
def requiredCols : List String :=
  ["campaign_name", "impressions", "clicks", "conversions", "spend", "revenue"]

/-- The header map built in main.go lines 114-117: looks up a column name in
the lowercased, trimmed header, later duplicates overwriting earlier ones. -/
def headerIdx (hdr : List String) (col : String) : Option Nat :=
  hdr.enum.foldl
    (fun acc p => if goToLower (goTrim p.2) = col then some p.1 else acc) none

/-- Fetch the raw cell of column `col` in `row` (`row[header[col]]`). -/
def getField (hdr row : List String) (rowNum : Nat) (col : String) :
    Except LoadErr String :=
  match headerIdx hdr col with
  | none => .error (.missingColumn col)
  | some i =>
    match row.get? i with
    | none => .error (.raggedRow rowNum col)
    | some s => .ok s

/-- The `parse` closure of the row loop (main.go lines 129-135): fetch and
parse one numeric field, tagging failures with row number and column name. -/
def parseField (hdr row : List String) (rowNum : Nat) (col : String) :
    Except LoadErr ℚ := do
  let s ← getField hdr row rowNum col
  match parseFloat s with
  | none => .error (.badField rowNum col)
  | some v => .ok v

/-- One iteration of the row loop (main.go lines 125-166): the five measures
are parsed in the fixed order impressions, clicks, conversions, spend,
revenue, aborting at the first failure. -/
def parseRow (hdr row : List String) (rowNum : Nat) : Except LoadErr Campaign := do
  let imp ← parseField hdr row rowNum "impressions"
  let clk ← parseField hdr row rowNum "clicks"
  let conv ← parseField hdr row rowNum "conversions"
  let spend ← parseField hdr row rowNum "spend"
  let rev ← parseField hdr row rowNum "revenue"
  let name ← getField hdr row rowNum "campaign_name"
  pure { Name := goTrim name, Impressions := imp, Clicks := clk,
         Conversions := conv, Spend := spend, Revenue := rev }

/-- The data-row loop of `loadCSV`: `i` is the 0-based index into `rows[1:]`,
rows of length 0 are skipped, and the first failing row aborts the load with
no partial result. -/
def loadRows (hdr : List String) : Nat → List (List String) →
    Except LoadErr (List Campaign)
  | _, [] => .ok []
  | i, row :: rest =>
    if row.isEmpty then loadRows hdr (i + 1) rest
    else do
      let c ← parseRow hdr row (i + 2)
      let cs ← loadRows hdr (i + 1) rest
      pure (c :: cs)

/-- Function `loadCSV` (main.go lines 96-168), starting from the record list that
`csv.ReadAll` produced.  File-open and CSV-syntax failures happen before this
point and are outside the model. -/
def loadCSV (rows : List (List String)) : Except LoadErr (List Campaign) :=
  match rows with
  | [] => .error .tooFewRows
  | [_] => .error .tooFewRows
  | hdr :: data =>
    match requiredCols.find? (fun col => (headerIdx hdr col).isNone) with
    | some col => .error (.missingColumn col)
    | none => loadRows hdr 0 data

/-- The compute-and-filter loop of `main` (main.go lines 269-275): map
`computeMetrics` over the loaded campaigns, keeping records with
`m.ROAS >= minROAS`. -/
def computeAndFilter (minROAS : ℚ) : List Campaign → List Metrics
  | [] => []
  | c :: rest =>
    let m := computeMetrics c
    if minROAS ≤ m.ROAS then m :: computeAndFilter minROAS rest
    else computeAndFilter minROAS rest

/-- The comparator closure handed to `sort.Slice` (main.go lines 278-293):
dispatch on the lowercased `--sort` key; `cpa` compares ascending, every other
branch descending, and the `default` branch (which also serves `"roas"`)
compares by ROAS descending. -/
def lessFor (sortBy : String) (x y : Metrics) : Bool :=
  match goToLower sortBy with
  | "ctr" => decide (y.CTR < x.CTR)
  | "cvr" => decide (y.CVR < x.CVR)
  | "cpa" => decide (x.CPA < y.CPA)
  | "spend" => decide (y.Spend < x.Spend)
  | "revenue" => decide (y.Revenue < x.Revenue)
  | _ => decide (y.ROAS < x.ROAS)

/-- Modelled from the spec: Go's `sort.Slice` (standard library, not part of
this repository's sources).  Its documentation promises only that the slice
ends up sorted by `less` and warns that "the sort is not guaranteed to be
stable".  The call is therefore modelled as the relation admitting every
output Go may produce: a permutation of the input in which no later element is
`less` than an earlier one.  Stability is deliberately absent from the
contract; `sort.SliceStable` is the variant that would add it. -/
def sortSliceGo (less : Metrics → Metrics → Bool) (input output : List Metrics) :
    Prop :=
  input.Perm output ∧ output.Pairwise (fun a b => less b a = false)

/-- The "Lowest CPA" linear scan of `main` (main.go lines 310-318): start from
`all[0]` (unconditionally) and replace the candidate by any later record with
conversions > 0 and a strictly smaller CPA. -/
def lowestCPA (first : Metrics) (rest : List Metrics) : Metrics :=
  rest.foldl
    (fun best m => if 0 < m.Conversions ∧ m.CPA < best.CPA then m else best) first

/-- The best/worst block of `main` (main.go lines 307-319): emitted only when
`len(all) > 1`; the first component is `all[0]` ("Best ROAS"), the second the
result of the lowest-CPA scan. -/
def selections (all : List Metrics) : Option (Metrics × Metrics) :=
  match all with
  | [] => none
  | [_] => none
  | a :: rest => some (a, lowestCPA a rest)

/-- Outcome of one run of `main` (main.go lines 245-320), abstracting each
printed report to the data it is rendered from. -/
inductive RunOut where
  | usageError : RunOut
  | loadFailure : LoadErr → RunOut
  | emptyWarning : RunOut
  | report : List Metrics → Metrics → Option (Metrics × Metrics) → RunOut
deriving DecidableEq

/-- Process exit status of each outcome: `os.Exit(1)` for usage and load
errors, `os.Exit(0)` for the empty-result warning, normal return (status 0)
for a printed report. -/
def exitCode : RunOut → Nat
  | .usageError => 1
  | .loadFailure _ => 1
  | .emptyWarning => 0
  | .report _ _ _ => 0

/-- Function `main` (main.go lines 245-320) as a relation between the inputs (flag
presence, CSV records, `--sort`, `--min-roas`) and the outcome; a relation
because the `sort.Slice` step is modelled by the relation `sortSliceGo`.  The
TOTAL row is computed from the filtered, sorted records and the best/lowest
block from the sorted sequence, exactly as in the source. -/
def mainRun (fileGiven : Bool) (rows : List (List String)) (sortBy : String)
    (minROAS : ℚ) (out : RunOut) : Prop :=
  if fileGiven = false then out = .usageError
  else
    match loadCSV rows with
    | .error e => out = .loadFailure e
    | .ok [] => out = .emptyWarning
    | .ok (c :: cs) =>
      ∃ sorted,
        sortSliceGo (lessFor sortBy) (computeAndFilter minROAS (c :: cs)) sorted ∧
          out = .report sorted (totalMetrics sorted) (selections sorted)

/-- Written from the specification text, §4.1: "`safeDiv(a, b)` = a/b when
b ≠ 0, else 0"; stated separately from the source's `safe` so the two can be
compared. -/
def safeDiv (a b : ℚ) : ℚ :=
  if b ≠ 0 then a / b else 0

/-- The CSV header row of the documented input format. -/
def stdHeader : List String :=
  ["campaign_name", "impressions", "clicks", "conversions", "spend", "revenue"]

/-- The spec's skewed-size aggregation example, large campaign: spend 1000,
revenue 1000, per-row ROAS 1.00. -/
def skewA : Campaign :=
  { Name := "A", Impressions := 0, Clicks := 0, Conversions := 0,
    Spend := 1000, Revenue := 1000 }

/-- The spec's skewed-size aggregation example, small campaign: spend 10,
revenue 50, per-row ROAS 5.00. -/
def skewB : Campaign :=
  { Name := "B", Impressions := 0, Clicks := 0, Conversions := 0,
    Spend := 10, Revenue := 50 }

/-- A campaign with ROAS 2.00 (20/10), used for sort-tie scenarios. -/
def tieACampaign : Campaign :=
  { Name := "TieA", Impressions := 1000, Clicks := 10, Conversions := 1,
    Spend := 10, Revenue := 20 }

/-- A distinct campaign also with ROAS 2.00 (200/100). -/
def tieBCampaign : Campaign :=
  { Name := "TieB", Impressions := 2000, Clicks := 30, Conversions := 2,
    Spend := 100, Revenue := 200 }

/-- A campaign with zero conversions but the best ROAS (10.00); its CPA is
forced to 0 by the zero-denominator policy. -/
def zeroConvCampaign : Campaign :=
  { Name := "ZeroConv", Impressions := 1000, Clicks := 10, Conversions := 0,
    Spend := 10, Revenue := 100 }

/-- A campaign with conversions (5) and a genuine CPA of 2.00. -/
def realConvCampaign : Campaign :=
  { Name := "RealConv", Impressions := 1000, Clicks := 10, Conversions := 5,
    Spend := 10, Revenue := 10 }

/-- The record of the spec's rounding example (§8). -/
def brandRecord : Campaign :=
  { Name := "Google Search - Brand", Impressions := 120000, Clicks := 4800,
    Conversions := 320, Spend := 1850, Revenue := 9200 }

end MarketingMetrics

namespace MarketingMetrics

lemma safe_eq_safeDiv (a b : ℚ) : safe a b = safeDiv a b := by
  by_cases hb : b = 0
  · simp [safe, safeDiv, hb]
  · simp [safe, safeDiv, hb]

lemma round2_zero : round2 0 = 0 := by
  with_unfolding_all rfl

lemma goRound_nonneg {q : ℚ} (h : 0 ≤ q) : 0 ≤ goRound q := by
  unfold goRound
  rw [if_neg (not_lt.mpr h)]
  have : (0 : ℤ) ≤ ⌊q + 1 / 2⌋ := by
    rw [Int.le_floor]
    push_cast
    linarith
  exact_mod_cast this

lemma round2_nonneg {q : ℚ} (h : 0 ≤ q) : 0 ≤ round2 q := by
  unfold round2
  have h1 : 0 ≤ goRound (q * 100) := goRound_nonneg (by positivity)
  positivity

lemma safe_nonneg {a b : ℚ} (ha : 0 ≤ a) (hb : 0 ≤ b) : 0 ≤ safe a b := by
  unfold safe
  by_cases h : b = 0
  · simp [h]
  · rw [if_neg h]
    exact div_nonneg ha hb

lemma computeMetrics_ROAS_nonneg {c : Campaign} (hs : 0 ≤ c.Spend)
    (hr : 0 ≤ c.Revenue) : 0 ≤ (computeMetrics c).ROAS :=
  round2_nonneg (safe_nonneg hr hs)

end MarketingMetrics

namespace MarketingMetrics

/-- C1: `computeMetrics` is total on every campaign record; each ratio agrees
with the spec's `safeDiv` formula, so every ratio whose denominator field is 0
is exactly 0 (never an error value), and every ratio with a non-zero
denominator is the rounded quotient of the spec formula. -/
theorem computeMetrics_matches_safeDiv (c : Campaign) :
    ((computeMetrics c).CTR = round2 (safeDiv c.Clicks c.Impressions * 100)
      ∧ (computeMetrics c).CVR = round2 (safeDiv c.Conversions c.Clicks * 100)
      ∧ (computeMetrics c).CPC = round2 (safeDiv c.Spend c.Clicks)
      ∧ (computeMetrics c).CPA = round2 (safeDiv c.Spend c.Conversions)
      ∧ (computeMetrics c).ROAS = round2 (safeDiv c.Revenue c.Spend)
      ∧ (computeMetrics c).RevPerConv = round2 (safeDiv c.Revenue c.Conversions))
    ∧ (c.Impressions = 0 → (computeMetrics c).CTR = 0)
    ∧ (c.Clicks = 0 → (computeMetrics c).CVR = 0 ∧ (computeMetrics c).CPC = 0)
    ∧ (c.Conversions = 0 →
        (computeMetrics c).CPA = 0 ∧ (computeMetrics c).RevPerConv = 0)
    ∧ (c.Spend = 0 → (computeMetrics c).ROAS = 0)
    ∧ (c.Impressions ≠ 0 →
        (computeMetrics c).CTR = round2 (c.Clicks / c.Impressions * 100))
    ∧ (c.Clicks ≠ 0 →
        (computeMetrics c).CVR = round2 (c.Conversions / c.Clicks * 100)
          ∧ (computeMetrics c).CPC = round2 (c.Spend / c.Clicks))
    ∧ (c.Conversions ≠ 0 →
        (computeMetrics c).CPA = round2 (c.Spend / c.Conversions)
          ∧ (computeMetrics c).RevPerConv = round2 (c.Revenue / c.Conversions))
    ∧ (c.Spend ≠ 0 → (computeMetrics c).ROAS = round2 (c.Revenue / c.Spend)) := by
  refine ⟨⟨?_, ?_, ?_, ?_, ?_, ?_⟩, ?_, ?_, ?_, ?_, ?_, ?_, ?_, ?_⟩
  all_goals
    first
    | (intro h; simp [computeMetrics, safe, h, round2_zero])
    | simp [computeMetrics, safe_eq_safeDiv]

/-- Witness for C1: at the all-zero record every ratio is 0; at the sample
record the ROAS is the rounded quotient. -/
theorem computeMetrics_matches_safeDiv_witness :
    (computeMetrics ⟨"Z", 0, 0, 0, 0, 0⟩).CTR = 0
    ∧ (computeMetrics brandRecord).ROAS = round2 ((9200 : ℚ) / 1850) := by
  constructor
  · exact (computeMetrics_matches_safeDiv _).2.1 rfl
  · exact (computeMetrics_matches_safeDiv brandRecord).2.2.2.2.2.2.2.2
      (by decide)

lemma totalMetrics_foldl (all : List Metrics) (t : Campaign) :
    all.foldl
      (fun t m =>
        { t with
          Impressions := t.Impressions + m.Impressions
          Clicks := t.Clicks + m.Clicks
          Conversions := t.Conversions + m.Conversions
          Spend := t.Spend + m.Spend
          Revenue := t.Revenue + m.Revenue }) t =
    { t with
      Impressions := t.Impressions + (all.map Metrics.Impressions).sum
      Clicks := t.Clicks + (all.map Metrics.Clicks).sum
      Conversions := t.Conversions + (all.map Metrics.Conversions).sum
      Spend := t.Spend + (all.map Metrics.Spend).sum
      Revenue := t.Revenue + (all.map Metrics.Revenue).sum } := by
  induction all generalizing t with
  | nil => simp
  | cons m rest ih =>
    simp only [List.foldl_cons, List.map_cons, List.sum_cons, ih]
    congr 1 <;> ring

/-- C2: `totalMetrics` equals `computeMetrics` applied to the synthetic record
labelled "TOTAL" whose five measures are the sums of the carried-forward raw
measures.  On the spec's skewed-size example the blended ROAS is 1.04
(1050/1010 rounded), not the 3.00 average of the already-rounded per-row ROAS
values. -/
theorem totalMetrics_recomputed_from_sums :
    (∀ all : List Metrics,
      totalMetrics all = computeMetrics
        { Name := "TOTAL"
          Impressions := (all.map Metrics.Impressions).sum
          Clicks := (all.map Metrics.Clicks).sum
          Conversions := (all.map Metrics.Conversions).sum
          Spend := (all.map Metrics.Spend).sum
          Revenue := (all.map Metrics.Revenue).sum })
    ∧ (totalMetrics [computeMetrics skewA, computeMetrics skewB]).ROAS = 104 / 100
    ∧ round2 (((computeMetrics skewA).ROAS + (computeMetrics skewB).ROAS) / 2) = 3
    ∧ (totalMetrics [computeMetrics skewA, computeMetrics skewB]).ROAS ≠
        round2 (((computeMetrics skewA).ROAS + (computeMetrics skewB).ROAS) / 2) := by
  have e1 : (totalMetrics [computeMetrics skewA, computeMetrics skewB]).ROAS =
      104 / 100 := by with_unfolding_all rfl
  have e2 : round2 (((computeMetrics skewA).ROAS + (computeMetrics skewB).ROAS) / 2) =
      3 := by with_unfolding_all rfl
  refine ⟨?_, e1, e2, ?_⟩
  · intro all
    unfold totalMetrics
    rw [totalMetrics_foldl]
    simp
  · rw [e1, e2]
    norm_num

end MarketingMetrics

namespace MarketingMetrics

lemma perm_pair_eq {α : Type _} {a b : α} {l : List α} (h : List.Perm [a, b] l) :
    l = [a, b] ∨ l = [b, a] := by
  have hlen : l.length = 2 := by
    have h2 := h.length_eq
    simpa using h2.symm
  rcases l with _ | ⟨x, _ | ⟨y, _ | ⟨z, rest⟩⟩⟩
  · simp at hlen
  · simp at hlen
  · have hx : x = a ∨ x = b := by
      have hm : x ∈ [a, b] := h.mem_iff.mpr (List.mem_cons_self x [y])
      simpa using hm
    rcases hx with hxa | hxb
    · subst hxa
      have h3 : b = y := List.singleton_perm_singleton.mp h.cons_inv
      subst h3
      exact Or.inl rfl
    · subst hxb
      have hy : y = a ∨ y = x := by
        have hm : y ∈ [a, x] := h.mem_iff.mpr (by simp)
        simpa using hm
      rcases hy with hya | hyx
      · subst hya
        first
        | exact Or.inl rfl
        | exact Or.inr rfl
      · subst hyx
        have ha : a = y := by
          have hm : a ∈ [y, y] := h.mem_iff.mp (by simp)
          simpa using hm
        subst ha
        exact Or.inl rfl
  · simp at hlen

/-- C3: the sort step gives no stability guarantee: for the two distinct
records with equal ROAS computed from `tieACampaign` and `tieBCampaign`, the
reversed pair is an admissible output of `sort.Slice` (as modelled by
`sortSliceGo` from its documented contract) on the input pair sorted by the
default ROAS key, so two equal-key records need not keep their relative input
order. -/
theorem sortSlice_admits_unstable_output :
    sortSliceGo (lessFor "roas")
      [computeMetrics tieACampaign, computeMetrics tieBCampaign]
      [computeMetrics tieBCampaign, computeMetrics tieACampaign]
    ∧ (computeMetrics tieACampaign).ROAS = (computeMetrics tieBCampaign).ROAS
    ∧ computeMetrics tieACampaign ≠ computeMetrics tieBCampaign := by
  refine ⟨⟨List.Perm.swap _ _ _, ?_⟩, ?_, ?_⟩
  · refine List.pairwise_cons.mpr ⟨?_, ?_⟩
    · intro m hm
      have hm' : m = computeMetrics tieACampaign := by simpa using hm
      subst hm'
      with_unfolding_all rfl
    · simp
  · with_unfolding_all rfl
  · intro h
    exact absurd (congrArg Metrics.Name h) (by decide)

lemma mainRun_ok {rows : List (List String)} {c : Campaign} {cs : List Campaign}
    (sortBy : String) (minROAS : ℚ) (out : RunOut)
    (h : loadCSV rows = .ok (c :: cs)) :
    mainRun true rows sortBy minROAS out ↔
      ∃ sorted,
        sortSliceGo (lessFor sortBy) (computeAndFilter minROAS (c :: cs)) sorted ∧
          out = .report sorted (totalMetrics sorted) (selections sorted) := by
  unfold mainRun
  rw [h]
  simp

lemma mainRun_empty {rows : List (List String)} (sortBy : String) (minROAS : ℚ)
    (out : RunOut) (h : loadCSV rows = .ok []) :
    mainRun true rows sortBy minROAS out ↔ out = .emptyWarning := by
  unfold mainRun
  rw [h]
  simp

/-- C4: the lowest-CPA scan can select a record with conversions = 0.  On the
run whose loaded campaigns are ZeroConv (best ROAS 10.00 but conversions 0,
CPA forced to 0) and RealConv (conversions 5, CPA 2.00), sorted by the default
key, every admissible outcome of `main` reports ZeroConv as "Lowest CPA",
because the scan starts from `all[0]` without checking its conversions. -/
theorem lowestCPA_selects_zero_conversion_record :
    (selections [computeMetrics zeroConvCampaign, computeMetrics realConvCampaign] =
        some (computeMetrics zeroConvCampaign, computeMetrics zeroConvCampaign)
      ∧ (computeMetrics zeroConvCampaign).Conversions = 0
      ∧ (computeMetrics zeroConvCampaign).CPA = 0
      ∧ 0 < (computeMetrics realConvCampaign).Conversions
      ∧ 0 < (computeMetrics realConvCampaign).CPA)
    ∧ (∀ out : RunOut, mainRun true
        [stdHeader, ["ZeroConv", "1000", "10", "0", "10", "100"],
          ["RealConv", "1000", "10", "5", "10", "10"]] "roas" 0 out →
        out = RunOut.report
          [computeMetrics zeroConvCampaign, computeMetrics realConvCampaign]
          (totalMetrics
            [computeMetrics zeroConvCampaign, computeMetrics realConvCampaign])
          (some (computeMetrics zeroConvCampaign, computeMetrics zeroConvCampaign))) := by
  constructor
  · refine ⟨?_, ?_, ?_, ?_, ?_⟩
    · with_unfolding_all rfl
    · with_unfolding_all rfl
    · with_unfolding_all rfl
    · with_unfolding_all decide
    · with_unfolding_all decide
  · intro out hrun
    have hload : loadCSV
        [stdHeader, ["ZeroConv", "1000", "10", "0", "10", "100"],
          ["RealConv", "1000", "10", "5", "10", "10"]] =
        .ok [zeroConvCampaign, realConvCampaign] := by
      with_unfolding_all rfl
    rw [mainRun_ok "roas" 0 out hload] at hrun
    obtain ⟨sorted, ⟨hperm, hpair⟩, hout⟩ := hrun
    have hfilter : computeAndFilter 0 [zeroConvCampaign, realConvCampaign] =
        [computeMetrics zeroConvCampaign, computeMetrics realConvCampaign] := by
      with_unfolding_all rfl
    rw [hfilter] at hperm
    rcases perm_pair_eq hperm with hs | hs
    · subst hs
      have hsel : selections
          [computeMetrics zeroConvCampaign, computeMetrics realConvCampaign] =
          some (computeMetrics zeroConvCampaign, computeMetrics zeroConvCampaign) := by
        with_unfolding_all rfl
      rw [hsel] at hout
      exact hout
    · subst hs
      exfalso
      have hlt : lessFor "roas" (computeMetrics zeroConvCampaign)
          (computeMetrics realConvCampaign) = true := by
        with_unfolding_all rfl
      have hfalse := (List.pairwise_cons.mp hpair).1
        (computeMetrics zeroConvCampaign) (by simp)
      rw [hlt] at hfalse
      simp at hfalse

end MarketingMetrics

namespace MarketingMetrics

lemma computeAndFilter_eq (minROAS : ℚ) (cs : List Campaign) :
    computeAndFilter minROAS cs =
      (cs.map computeMetrics).filter (fun m => decide (minROAS ≤ m.ROAS)) := by
  induction cs with
  | nil => rfl
  | cons c rest ih =>
    simp only [computeAndFilter, List.map_cons, List.filter_cons]
    by_cases h : minROAS ≤ (computeMetrics c).ROAS
    · simp [h, ih]
    · simp [h, ih]

/-- C5: the compute-and-filter loop keeps exactly the records whose ROAS is
at least `minROAS` (inclusive at equality), in input order (the kept records
form a sublist of the full mapped sequence), and the default threshold 0
keeps every record computed from campaigns with non-negative measures. -/
theorem filter_keeps_exactly_threshold (minROAS : ℚ) (cs : List Campaign) :
    computeAndFilter minROAS cs =
      (cs.map computeMetrics).filter (fun m => decide (minROAS ≤ m.ROAS))
    ∧ (∀ m, m ∈ computeAndFilter minROAS cs ↔
        m ∈ cs.map computeMetrics ∧ minROAS ≤ m.ROAS)
    ∧ (computeAndFilter minROAS cs).Sublist (cs.map computeMetrics)
    ∧ ((∀ c ∈ cs, 0 ≤ c.Spend ∧ 0 ≤ c.Revenue) →
        computeAndFilter 0 cs = cs.map computeMetrics) := by
  refine ⟨computeAndFilter_eq _ _, ?_, ?_, ?_⟩
  · intro m
    rw [computeAndFilter_eq]
    simp [List.mem_filter]
  · rw [computeAndFilter_eq]
    exact List.filter_sublist _
  · intro hnn
    rw [computeAndFilter_eq]
    refine List.filter_eq_self.mpr ?_
    intro m hm
    rcases List.mem_map.mp hm with ⟨c, hc, rfl⟩
    simpa using computeMetrics_ROAS_nonneg (hnn c hc).1 (hnn c hc).2

/-- Witness for C5: with threshold 0 the sample record survives filtering. -/
theorem filter_keeps_exactly_threshold_witness :
    computeAndFilter 0 [brandRecord] = [computeMetrics brandRecord] :=
  (filter_keeps_exactly_threshold 0 [brandRecord]).2.2.2 (by decide)

lemma lessFor_default {key : String}
    (hne : goToLower key ∉ (["ctr", "cvr", "cpa", "spend", "revenue"] : List String))
    (x y : Metrics) : lessFor key x y = decide (y.ROAS < x.ROAS) := by
  simp only [List.mem_cons, List.not_mem_nil, or_false, not_or] at hne
  unfold lessFor
  split <;> first | rfl | simp_all

/-- C6: sort-key dispatch: the `--sort` key is matched after lowercasing (so
matching is case-insensitive), `cpa` compares ascending by CPA, the other
five keys compare descending by their field, and any unrecognized key falls
back to ROAS descending; consequently any admissible sorted output is ordered
ascending by CPA under key `cpa` and descending by ROAS under key `roas`. -/
theorem sortKey_dispatch :
    (∀ x y : Metrics, lessFor "cpa" x y = decide (x.CPA < y.CPA))
    ∧ (∀ x y : Metrics, lessFor "CPA" x y = decide (x.CPA < y.CPA))
    ∧ (∀ x y : Metrics, lessFor "ctr" x y = decide (y.CTR < x.CTR))
    ∧ (∀ x y : Metrics, lessFor "CTR" x y = decide (y.CTR < x.CTR))
    ∧ (∀ x y : Metrics, lessFor "cvr" x y = decide (y.CVR < x.CVR))
    ∧ (∀ x y : Metrics, lessFor "Cvr" x y = decide (y.CVR < x.CVR))
    ∧ (∀ x y : Metrics, lessFor "spend" x y = decide (y.Spend < x.Spend))
    ∧ (∀ x y : Metrics, lessFor "SPEND" x y = decide (y.Spend < x.Spend))
    ∧ (∀ x y : Metrics, lessFor "revenue" x y = decide (y.Revenue < x.Revenue))
    ∧ (∀ x y : Metrics, lessFor "Revenue" x y = decide (y.Revenue < x.Revenue))
    ∧ (∀ x y : Metrics, lessFor "roas" x y = decide (y.ROAS < x.ROAS))
    ∧ (∀ x y : Metrics, lessFor "ROAS" x y = decide (y.ROAS < x.ROAS))
    ∧ (∀ (key : String) (x y : Metrics),
        goToLower key ∉ (["ctr", "cvr", "cpa", "spend", "revenue"] : List String) →
          lessFor key x y = decide (y.ROAS < x.ROAS))
    ∧ (∀ l out : List Metrics, sortSliceGo (lessFor "cpa") l out →
        out.Pairwise (fun a b => a.CPA ≤ b.CPA))
    ∧ (∀ l out : List Metrics, sortSliceGo (lessFor "roas") l out →
        out.Pairwise (fun a b => b.ROAS ≤ a.ROAS)) := by
  refine ⟨fun x y => by with_unfolding_all rfl, fun x y => by with_unfolding_all rfl,
    fun x y => by with_unfolding_all rfl, fun x y => by with_unfolding_all rfl,
    fun x y => by with_unfolding_all rfl, fun x y => by with_unfolding_all rfl,
    fun x y => by with_unfolding_all rfl, fun x y => by with_unfolding_all rfl,
    fun x y => by with_unfolding_all rfl, fun x y => by with_unfolding_all rfl,
    fun x y => by with_unfolding_all rfl, fun x y => by with_unfolding_all rfl,
    fun key x y hne => lessFor_default hne x y, ?_, ?_⟩
  · intro l out hs
    refine hs.2.imp ?_
    intro a b hab
    have he : lessFor "cpa" b a = decide (b.CPA < a.CPA) := by
      with_unfolding_all rfl
    rw [he] at hab
    exact not_lt.mp (of_decide_eq_false hab)
  · intro l out hs
    refine hs.2.imp ?_
    intro a b hab
    have he : lessFor "roas" b a = decide (a.ROAS < b.ROAS) := by
      with_unfolding_all rfl
    rw [he] at hab
    exact not_lt.mp (of_decide_eq_false hab)

/-- Witness for C6: an unrecognized key ("clicks") falls back to comparing
ROAS descending, and a singleton output is admissible and trivially ordered. -/
theorem sortKey_dispatch_witness :
    lessFor "clicks" ⟨"M", 1, 2, 3, 4, 5, 6, 7, 8, 9, 10, 11⟩
        ⟨"N", 1, 2, 3, 4, 6, 6, 7, 8, 9, 10, 11⟩ =
      decide ((6 : ℚ) < 5)
    ∧ ([] : List Metrics).Pairwise
        (fun a b : Metrics => a.CPA ≤ b.CPA) := by
  constructor
  · exact sortKey_dispatch.2.2.2.2.2.2.2.2.2.2.2.2.1 "clicks" _ _ (by decide)
  · exact sortKey_dispatch.2.2.2.2.2.2.2.2.2.2.2.2.2.1 []
      [] ⟨List.Perm.refl _, List.Pairwise.nil⟩

end MarketingMetrics

namespace MarketingMetrics

lemma loadCSV_single_spend (s : String) :
    loadCSV [stdHeader, ["A", "1", "1", "1", s, "1"]] =
      match parseFloat s with
      | none => .error (.badField 2 "spend")
      | some v => .ok [{ Name := "A", Impressions := 1, Clicks := 1,
                         Conversions := 1, Spend := v, Revenue := 1 }] := by
  have h2 : loadCSV [stdHeader, ["A", "1", "1", "1", s, "1"]] =
      (parseRow stdHeader ["A", "1", "1", "1", s, "1"] 2).bind
        (fun c => Except.ok [c]) := by
    with_unfolding_all rfl
  have h3 : parseRow stdHeader ["A", "1", "1", "1", s, "1"] 2 =
      (parseField stdHeader ["A", "1", "1", "1", s, "1"] 2 "spend").bind
        (fun v => Except.ok { Name := "A", Impressions := 1, Clicks := 1,
                              Conversions := 1, Spend := v, Revenue := 1 }) := by
    with_unfolding_all rfl
  have h1 : parseField stdHeader ["A", "1", "1", "1", s, "1"] 2 "spend" =
      match parseFloat s with
      | none => Except.error (LoadErr.badField 2 "spend")
      | some v => Except.ok v := by
    with_unfolding_all rfl
  rw [h2, h3, h1]
  cases parseFloat s with
  | none => rfl
  | some v => rfl

/-- C7 (counterexample): a negative value in a numeric measure is NOT a
load-time error — `loadCSV` accepts the spend field "-5" and returns a
campaign with spend -5. -/
theorem loadCSV_accepts_negative_spend :
    loadCSV [stdHeader, ["A", "1", "1", "1", "-5", "1"]] =
      .ok [{ Name := "A", Impressions := 1, Clicks := 1, Conversions := 1,
             Spend := -5, Revenue := 1 }]
    ∧ (-5 : ℚ) < 0 := by
  constructor
  · with_unfolding_all rfl
  · decide

/-- C7 (amended): loading fails the whole run exactly when a required column
is missing or a numeric field does not parse as a number (not "as a
non-negative number": negative values parse and are accepted); a field
failure carries the 1-based row number and the field name of the first
failing field in the fixed order impressions, clicks, conversions, spend,
revenue, and the first failing row aborts the load with no partial result. -/
theorem loadCSV_contract (s : String) :
    (parseFloat s = none →
      loadCSV [stdHeader, ["A", "1", "1", "1", s, "1"]] =
        .error (.badField 2 "spend"))
    ∧ (∀ v : ℚ, parseFloat s = some v →
        loadCSV [stdHeader, ["A", "1", "1", "1", s, "1"]] =
          .ok [{ Name := "A", Impressions := 1, Clicks := 1, Conversions := 1,
                 Spend := v, Revenue := 1 }])
    ∧ loadCSV [stdHeader, ["A", "x", "y", "3", "4", "5"],
        ["B", "1", "1", "1", "1", "1"]] = .error (.badField 2 "impressions")
    ∧ loadCSV [["impressions", "clicks", "conversions", "spend", "revenue"],
        ["1", "1", "1", "1", "1"]] = .error (.missingColumn "campaign_name") := by
  refine ⟨?_, ?_, ?_, ?_⟩
  · intro h
    rw [loadCSV_single_spend, h]
  · intro v h
    rw [loadCSV_single_spend, h]
  · with_unfolding_all rfl
  · with_unfolding_all rfl

/-- Witness for C7: instantiated at the negative field "-5", which parses to
-5, the load succeeds and carries the negative spend through. -/
theorem loadCSV_contract_witness :
    loadCSV [stdHeader, ["A", "1", "1", "1", "-5", "1"]] =
      .ok [{ Name := "A", Impressions := 1, Clicks := 1, Conversions := 1,
             Spend := -5, Revenue := 1 }] :=
  (loadCSV_contract "-5").2.1 (-5) (by with_unfolding_all rfl)

/-- C8: a run whose load succeeds with zero campaign rows is not an error:
every admissible outcome of `main` is the warning, which exits with status 0;
such inputs exist (a header plus a length-0 record). -/
theorem empty_load_warns_exit_zero (rows : List (List String)) (sortBy : String)
    (minROAS : ℚ) (out : RunOut) :
    (loadCSV rows = .ok [] → mainRun true rows sortBy minROAS out →
      out = .emptyWarning ∧ exitCode out = 0)
    ∧ (loadCSV rows = .ok [] → mainRun true rows sortBy minROAS .emptyWarning)
    ∧ loadCSV [stdHeader, []] = .ok [] := by
  refine ⟨?_, ?_, ?_⟩
  · intro h hrun
    have ho := (mainRun_empty sortBy minROAS out h).mp hrun
    subst ho
    exact ⟨rfl, rfl⟩
  · intro h
    exact (mainRun_empty sortBy minROAS _ h).mpr rfl
  · with_unfolding_all rfl

/-- Witness for C8: on the header-plus-blank-row input the warning outcome is
admissible and exits 0. -/
theorem empty_load_warns_exit_zero_witness :
    mainRun true [stdHeader, []] "roas" 0 .emptyWarning
      ∧ exitCode .emptyWarning = 0 := by
  refine ⟨(empty_load_warns_exit_zero [stdHeader, []] "roas" 0 .emptyWarning).2.1
    (by with_unfolding_all rfl), rfl⟩

end MarketingMetrics

namespace MarketingMetrics

lemma goRound_close (x : ℚ) : |x - goRound x| ≤ 1 / 2 := by
  unfold goRound
  by_cases h : x < 0
  · rw [if_pos h]
    have h1 : ((⌊-x + 1 / 2⌋ : ℤ) : ℚ) ≤ -x + 1 / 2 := Int.floor_le _
    have h2 : -x + 1 / 2 < (⌊-x + 1 / 2⌋ : ℤ) + 1 := Int.lt_floor_add_one _
    rw [abs_le]
    constructor <;> push_cast at h1 h2 ⊢ <;> linarith
  · rw [if_neg h]
    have h1 : ((⌊x + 1 / 2⌋ : ℤ) : ℚ) ≤ x + 1 / 2 := Int.floor_le _
    have h2 : x + 1 / 2 < (⌊x + 1 / 2⌋ : ℤ) + 1 := Int.lt_floor_add_one _
    rw [abs_le]
    constructor <;> push_cast at h1 h2 ⊢ <;> linarith

lemma goRound_tie_away {x : ℚ} (h : |x - goRound x| = 1 / 2) :
    |goRound x| = |x| + 1 / 2 := by
  unfold goRound at h ⊢
  by_cases hx : x < 0
  · rw [if_pos hx] at h ⊢
    have h1 : ((⌊-x + 1 / 2⌋ : ℤ) : ℚ) ≤ -x + 1 / 2 := Int.floor_le _
    have h2 : -x + 1 / 2 < (⌊-x + 1 / 2⌋ : ℤ) + 1 := Int.lt_floor_add_one _
    push_cast at h1 h2
    rcases (abs_eq (by norm_num : (0 : ℚ) ≤ 1 / 2)).mp h with heq | heq
    · have hfl : ((⌊-x + 1 / 2⌋ : ℤ) : ℚ) = -x + 1 / 2 := by
        push_cast
        linarith
      rw [hfl, abs_neg, abs_of_pos (by linarith), abs_of_neg hx]
    · exfalso
      have : ((⌊-x + 1 / 2⌋ : ℤ) : ℚ) = -x - 1 / 2 := by
        push_cast
        linarith
      linarith [this]
  · rw [if_neg hx] at h ⊢
    have h1 : ((⌊x + 1 / 2⌋ : ℤ) : ℚ) ≤ x + 1 / 2 := Int.floor_le _
    have h2 : x + 1 / 2 < (⌊x + 1 / 2⌋ : ℤ) + 1 := Int.lt_floor_add_one _
    push_cast at h1 h2
    rcases (abs_eq (by norm_num : (0 : ℚ) ≤ 1 / 2)).mp h with heq | heq
    · exfalso
      linarith
    · have hfl : ((⌊x + 1 / 2⌋ : ℤ) : ℚ) = x + 1 / 2 := by linarith
      rw [hfl, abs_of_pos (by linarith), abs_of_nonneg (not_lt.mp hx)]

/-- C9: `round2` rounds to 2 decimal places with round-half-away-from-zero
semantics: the rounded numerator `goRound (q*100)` is within half a unit of
`q*100` and a tie moves away from zero; on the spec's concrete record the six
ratios are CTR 4.00, CVR 6.67, CPC 0.39, CPA 5.78, ROAS 4.97,
RevPerConv 28.75. -/
theorem round2_ties_away_and_example (q : ℚ) :
    |q * 100 - goRound (q * 100)| ≤ 1 / 2
    ∧ (|q * 100 - goRound (q * 100)| = 1 / 2 →
        |goRound (q * 100)| = |q * 100| + 1 / 2)
    ∧ round2 q = goRound (q * 100) / 100
    ∧ computeMetrics brandRecord =
      { Name := "Google Search - Brand", CTR := 4, CVR := 667 / 100,
        CPC := 39 / 100, CPA := 578 / 100, ROAS := 497 / 100,
        RevPerConv := 2875 / 100, Spend := 1850, Revenue := 9200,
        Impressions := 120000, Clicks := 4800, Conversions := 320 } := by
  refine ⟨goRound_close _, fun h => goRound_tie_away h, rfl, ?_⟩
  with_unfolding_all rfl

/-- Witness for C9: at q = 1/200 (so q·100 = 1/2, an exact tie), the tie is
rounded away from zero, to 1. -/
theorem round2_ties_away_and_example_witness :
    |(1 : ℚ) / 200 * 100 - goRound ((1 : ℚ) / 200 * 100)| = 1 / 2
    ∧ |goRound ((1 : ℚ) / 200 * 100)| = |(1 : ℚ) / 200 * 100| + 1 / 2 := by
  have ht : |(1 : ℚ) / 200 * 100 - goRound ((1 : ℚ) / 200 * 100)| = 1 / 2 := by
    with_unfolding_all decide
  exact ⟨ht, (round2_ties_away_and_example (1 / 200)).2.1 ht⟩

/-- C10: the best-ROAS / lowest-CPA block is emitted exactly when the
filtered-and-sorted sequence has strictly more than one record: for zero or
one records `selections` is `none`, and for longer sequences it is the pair
of the first record and the lowest-CPA scan result. -/
theorem selections_require_two (all : List Metrics) (a : Metrics)
    (rest : List Metrics) :
    (selections all = none ↔ all.length ≤ 1)
    ∧ (rest ≠ [] → selections (a :: rest) = some (a, lowestCPA a rest))
    ∧ (1 < all.length → ∃ p, selections all = some p) := by
  refine ⟨?_, ?_, ?_⟩
  · rcases all with _ | ⟨x, _ | ⟨y, t⟩⟩ <;> simp [selections]
  · intro hne
    rcases rest with _ | ⟨r, t⟩
    · exact absurd rfl hne
    · rfl
  · intro hlen
    rcases all with _ | ⟨x, _ | ⟨y, t⟩⟩
    · simp at hlen
    · simp at hlen
    · exact ⟨_, rfl⟩

/-- Witness for C10: a two-record sequence yields the pair of its head and the
scan result. -/
theorem selections_require_two_witness :
    selections [(⟨"M", 1, 2, 3, 4, 5, 6, 7, 8, 9, 10, 11⟩ : Metrics),
        ⟨"N", 1, 2, 3, 4, 6, 6, 7, 8, 9, 10, 11⟩] =
      some (⟨"M", 1, 2, 3, 4, 5, 6, 7, 8, 9, 10, 11⟩,
        lowestCPA ⟨"M", 1, 2, 3, 4, 5, 6, 7, 8, 9, 10, 11⟩
          [⟨"N", 1, 2, 3, 4, 6, 6, 7, 8, 9, 10, 11⟩]) := by
  exact (selections_require_two [] ⟨"M", 1, 2, 3, 4, 5, 6, 7, 8, 9, 10, 11⟩
    [⟨"N", 1, 2, 3, 4, 6, 6, 7, 8, 9, 10, 11⟩]).2.1 (by decide)

end MarketingMetrics

namespace MarketingMetrics

/-- Witness for C2: instantiated at the empty collection, the aggregate is
`computeMetrics` of the all-zero TOTAL record, and the skewed example's
blended ROAS differs from the average of rounded per-row ROAS values. -/
theorem totalMetrics_recomputed_from_sums_witness :
    totalMetrics [] = computeMetrics
      { Name := "TOTAL", Impressions := 0, Clicks := 0, Conversions := 0,
        Spend := 0, Revenue := 0 }
    ∧ (totalMetrics [computeMetrics skewA, computeMetrics skewB]).ROAS = 104 / 100 := by
  constructor
  · have h := totalMetrics_recomputed_from_sums.1 []
    simpa using h
  · exact totalMetrics_recomputed_from_sums.2.1

/-- Witness for C4: the universal part of the claim theorem applied at the
concrete admissible outcome, whose `mainRun` hypothesis is discharged by an
explicit run of the pipeline on the two-campaign input. -/
theorem lowestCPA_selects_zero_conversion_record_witness :
    RunOut.report [computeMetrics zeroConvCampaign, computeMetrics realConvCampaign]
        (totalMetrics [computeMetrics zeroConvCampaign, computeMetrics realConvCampaign])
        (some (computeMetrics zeroConvCampaign, computeMetrics zeroConvCampaign)) =
      RunOut.report [computeMetrics zeroConvCampaign, computeMetrics realConvCampaign]
        (totalMetrics [computeMetrics zeroConvCampaign, computeMetrics realConvCampaign])
        (some (computeMetrics zeroConvCampaign, computeMetrics zeroConvCampaign)) := by
  apply lowestCPA_selects_zero_conversion_record.2
  have hload : loadCSV
      [stdHeader, ["ZeroConv", "1000", "10", "0", "10", "100"],
        ["RealConv", "1000", "10", "5", "10", "10"]] =
      .ok [zeroConvCampaign, realConvCampaign] := by
    with_unfolding_all rfl
  rw [mainRun_ok "roas" 0 _ hload]
  have hfilter : computeAndFilter 0 [zeroConvCampaign, realConvCampaign] =
      [computeMetrics zeroConvCampaign, computeMetrics realConvCampaign] := by
    with_unfolding_all rfl
  refine ⟨[computeMetrics zeroConvCampaign, computeMetrics realConvCampaign],
    ⟨?_, ?_⟩, ?_⟩
  · rw [hfilter]
  · refine List.pairwise_cons.mpr ⟨?_, by simp⟩
    intro m hm
    have hm' : m = computeMetrics realConvCampaign := by simpa using hm
    subst hm'
    with_unfolding_all rfl
  · have hsel : selections
        [computeMetrics zeroConvCampaign, computeMetrics realConvCampaign] =
        some (computeMetrics zeroConvCampaign, computeMetrics zeroConvCampaign) := by
      with_unfolding_all rfl
    rw [hsel]

end MarketingMetrics
